import Mathlib

/-!
Verification development for console-log-extension (src/index.js).

The source is a console.log decorator built around one class,
ConsoleLogExtension.  Its methods are embedded below as pure Lean
functions over explicit inputs:

- findRealCaller parses a textual stack trace.  Since Lean cannot raise a
  synthetic host error, the trace text (the value of err.stack) is an
  explicit argument.  The JS regex at (.*?) \(?(.+?):(\d+):(\d+)\)? is
  embedded as a backtracking matcher (regexFind) with JS semantics:
  leftmost start position, lazy groups prefer the shortest capture, the
  optional parenthesis is greedy, \d is ASCII 0-9, and the dot matches
  every character except the four JS line terminators.
- log is embedded with its two observable effects made explicit: the
  console.log sink becomes a returned list of ConsoleCall values, and the
  outcome of this.findRealCaller() (which may throw, e.g. when err.stack
  is missing, or when a resolver override throws) becomes an
  Except-valued argument.  The list of emitted calls is returned inside
  Except, whose error case models an exception escaping log.
- init and the style and emoji tables are embedded directly; JS object
  bracket lookup on the style and emoji literals is modelled with the
  prototype chain: an own data property yields its string, any other key
  that names an Object.prototype member yields that inherited (truthy,
  non-string) member, and every remaining key yields undefined
  (JsPropValue and jsLookup).  The JS falsy-or operator (x || d) is
  modelled by jsOr and jsOrOpt on strings and by jsOrProp on looked-up
  property values, and the string coercion that the + operator and
  template strings apply to a non-string operand is jsPropToString,
  which renders an inherited built-in function per the NativeFunction
  grammar that Function.prototype.toString mandates for built-ins (no
  theorem below depends on that text beyond it not being one of the CSS
  literals, which the grammar guarantees).
-/

namespace ConsoleLogExtension

/-- Result of findRealCaller: the caller descriptor built from the first
surviving stack frame, or the unknown-sentinel descriptor. -/
structure CallerDescriptor where
  functionName : String
  file : String
  line : String
deriving DecidableEq

/-- JS string-or-default: s || d where s is a string ("" is falsy). -/
def jsOr (s d : String) : String := if s = "" then d else s

/-- JS value-or-default where the value may be undefined (none) or a
string: x || d. -/
def jsOrOpt (o : Option String) (d : String) : String :=
  match o with
  | some s => jsOr s d
  | none => d

/-- Check that the first list is a leading segment of the second. -/
def startsWithChars : List Char → List Char → Bool
  | [], _ => true
  | _ :: _, [] => false
  | a :: as, b :: bs => a == b && startsWithChars as bs

/-- Check that the first list occurs contiguously inside the second. -/
def includesChars (sub : List Char) : List Char → Bool
  | [] => startsWithChars sub []
  | c :: rest => startsWithChars sub (c :: rest) || includesChars sub rest

/-- JS String.prototype.includes(sub): substring containment. -/
def includesStr (s sub : String) : Bool := includesChars sub.data s.data

/-- Whitespace set of JS String.prototype.trim (WhiteSpace plus
LineTerminator). -/
def jsWhitespaceChars : List Char :=
  [' ', '\t', '\n', '\x0b', '\x0c', '\r',
   ' ', ' ', ' ', ' ', ' ', ' ', ' ',
   ' ', ' ', ' ', ' ', ' ', ' ',
   ' ', ' ', ' ', ' ', '　', '﻿']

def isJsWhitespace (c : Char) : Bool := jsWhitespaceChars.contains c

/-- JS String.prototype.trim. -/
def jsTrim (s : String) : String :=
  String.mk (((s.data.dropWhile isJsWhitespace).reverse.dropWhile isJsWhitespace).reverse)

/-- Split a character list at every character satisfying p, preserving
empty segments, as JS String.prototype.split does for a one-character
separator or character class. -/
def splitOnPred (p : Char → Bool) : List Char → List (List Char)
  | [] => [[]]
  | c :: cs =>
    let r := splitOnPred p cs
    if p c then [] :: r
    else
      match r with
      | [] => [[c]]
      | h :: t => (c :: h) :: t

/-- Embedding of err.stack.split("\n").map(line => line.trim()) from
findRealCaller. -/
def stackLinesOf (stack : String) : List String :=
  ((splitOnPred (fun c => c == '\n') stack.data).map fun l => String.mk l).map jsTrim

/-- JS regex dot: any character except the four line terminators. -/
def dotM (c : Char) : Bool :=
  c != '\n' && c != '\r' && c != ' ' && c != ' '

/-- Maximal run of ASCII digits at the head of the list (the
deterministic behaviour of a greedy \d+ whose follower is never a
digit). -/
def takeDigits : List Char → List Char × List Char
  | [] => ([], [])
  | c :: cs =>
    if c.isDigit then
      let p := takeDigits cs
      (c :: p.1, p.2)
    else ([], c :: cs)

/-- Matcher for the regex tail (\d+):(\d+)\)? -- the trailing optional
parenthesis always succeeds, so it binds the two digit groups. -/
def matchNums (cs : List Char) : Option (List Char × List Char) :=
  let p1 := takeDigits cs
  if p1.1 = [] then none
  else
    match p1.2 with
    | ':' :: r2 =>
      let p2 := takeDigits r2
      if p2.1 = [] then none else some (p1.1, p2.1)
    | _ => none

/-- Attempt to place the separator colon of :(\d+):(\d+)\)? at the head
of the list. -/
def matchSep (cs : List Char) : Option (List Char × List Char) :=
  match cs with
  | ':' :: r2 => matchNums r2
  | _ => none

/-- Lazy group (.+?) followed by :(\d+):(\d+)\)? -- the shortest
nonempty dot-run whose following text carries the colon and the two
digit groups.  Returns (group2, group3, group4). -/
def matchG2 : List Char → Option (List Char × List Char × List Char)
  | [] => none
  | c :: rest =>
    if dotM c then
      match matchSep rest with
      | some p => some ([c], p.1, p.2)
      | none => (matchG2 rest).map fun q => (c :: q.1, q.2)
    else none

/-- Greedy optional parenthesis \(? followed by matchG2: when the head
is a literal parenthesis, consuming it is tried first, and dropping the
consumption is the backtracking alternative. -/
def matchPostSpace (cs : List Char) : Option (List Char × List Char × List Char) :=
  match cs with
  | '(' :: rest =>
    (match matchG2 rest with
     | some q => some q
     | none => matchG2 cs)
  | _ => matchG2 cs

/-- Lazy group (.*?) followed by a literal space and matchPostSpace: the
shortest (possibly empty) dot-run before a space position at which the
rest of the pattern matches.  Returns (group1, group2, group3, group4). -/
def matchG1 : List Char → Option (List Char × List Char × List Char × List Char)
  | [] => none
  | c :: rest =>
    if c = ' ' then
      match matchPostSpace rest with
      | some p => some ([], p)
      | none => (matchG1 rest).map fun q => (c :: q.1, q.2)
    else if dotM c then
      (matchG1 rest).map fun q => (c :: q.1, q.2)
    else none

/-- One attempt of the whole pattern at the current position: the
literal prefix "at " then matchG1. -/
def matchWhole : List Char → Option (List Char × List Char × List Char × List Char)
  | 'a' :: 't' :: ' ' :: rest => matchG1 rest
  | _ => none

/-- Leftmost search of the pattern over the line, one start position at
a time, as JS String.prototype.match does for a non-global regex. -/
def regexFind : List Char → Option (List Char × List Char × List Char × List Char)
  | [] => none
  | c :: rest =>
    match matchWhole (c :: rest) with
    | some q => some q
    | none => regexFind rest

/-- Embedding of line.match(/at (.*?) \(?(.+?):(\d+):(\d+)\)?/), giving
the four capture groups (function, file path, line, column). -/
def frameMatch (line : String) : Option (String × String × String × String) :=
  (regexFind line.data).map fun q =>
    (String.mk q.1, String.mk q.2.1, String.mk q.2.2.1, String.mk q.2.2.2)

/-- Logger-marker filter of findRealCaller: the matched frame is skipped
when the path token carries one of the two logger-source markers or the
symbol name carries the logger class name.  The JS defaulting of the
captures (match[1] || "Global Scope", match[2] || "unknown") happens
before this test, exactly as in the source. -/
def isLoggerFrame (g1 g2 : String) : Bool :=
  let func := jsOr g1 "Global Scope"
  let fullPath := jsOr g2 "unknown"
  includesStr fullPath "console-logger-fresh.js" ||
    includesStr fullPath "console_log_extension_fresh" ||
    includesStr func "ConsoleLogExtension"

/-- Embedding of fullPath.split(/[\\/]/) at the character-list level:
split at every forward or backward slash, preserving empty segments. -/
def splitOnSlashes (cs : List Char) : List (List Char) :=
  splitOnPred (fun c => c == '/' || c == '\\') cs

def splitSlashes (s : String) : List String :=
  (splitOnSlashes s.data).map fun l => String.mk l

/-- Extraction step of findRealCaller once a matched frame has survived
the filter: JS capture defaulting, basename via split-and-pop with its
own || "unknown" default, and normalization of the anonymous
placeholder. -/
def extractFrame (g1 g2 g3 : String) : CallerDescriptor :=
  let func := jsOr g1 "Global Scope"
  let fullPath := jsOr g2 "unknown"
  let lineNum := jsOr g3 "?"
  let file := jsOrOpt (splitSlashes fullPath).getLast? "unknown"
  let functionName := if func != "<anonymous>" then func else "Global Scope"
  { functionName := functionName, file := file, line := lineNum }

/-- Fallback descriptor returned when no stack line survives. -/
def unknownCaller : CallerDescriptor :=
  { functionName := "Global Scope", file := "unknown", line := "?" }

/-- Loop of findRealCaller over the stack lines after the header:
unmatched lines and logger frames are skipped, the first surviving frame
is extracted, exhaustion yields the unknown descriptor. -/
def findLoop : List String → CallerDescriptor
  | [] => unknownCaller
  | l :: rest =>
    match frameMatch l with
    | none => findLoop rest
    | some (g1, g2, g3, _g4) =>
      if isLoggerFrame g1 g2 then findLoop rest
      else extractFrame g1 g2 g3

/-- Embedding of findRealCaller: split the trace into trimmed lines,
skip the header line (index 0), scan the rest in order. -/
def findRealCaller (stack : String) : CallerDescriptor :=
  findLoop ((stackLinesOf stack).drop 1)

/-- Specification-side view of one line: the frame-pattern match when it
exists and survives the logger-marker filter. -/
def survivingFrame (line : String) : Option (String × String × String × String) :=
  match frameMatch line with
  | none => none
  | some (g1, g2, g3, g4) =>
    if isLoggerFrame g1 g2 then none else some (g1, g2, g3, g4)

/-- Specification-side view of the whole trace: the first surviving
frame among the lines from index 1 onward. -/
def firstSurvivingFrame (stack : String) : Option (String × String × String × String) :=
  ((stackLinesOf stack).drop 1).findSome? survivingFrame

/-- Final path segment of a path token: the last component of the split
at forward and backward slashes (empty when the token ends in a
separator). -/
def finalSegment (path : String) : String :=
  ((splitSlashes path).getLast?).getD ""

/-- Extraction rule stated by the specification, written from its words
for comparison with extractFrame: the symbol name is kept as-is unless
it equals the anonymous placeholder, and the file token is reduced to
its final path segment.  It omits the two JS falsy-defaulting steps of
the source (empty symbol name, empty final segment). -/
def specClaimedExtraction (g1 g2 g3 : String) : CallerDescriptor :=
  { functionName := if g1 = "<anonymous>" then "Global Scope" else g1,
    file := finalSegment g2,
    line := g3 }

/-- Configuration object of the class: one field per key set in the
constructor. -/
structure Config where
  theme : String
  showDate : Bool
  showFilename : Bool
  showLineNumber : Bool
  showLogLevel : Bool
  useEmojis : Bool
  disable : Bool
  errorHandling : String
deriving DecidableEq

/-- Default configuration built in the constructor. -/
def defaultConfig : Config :=
  { theme := "dark", showDate := true, showFilename := true,
    showLineNumber := true, showLogLevel := true, useEmojis := true,
    disable := false, errorHandling := "silent" }

/-- Partial configuration passed to init: absent keys are none. -/
structure PartialConfig where
  theme : Option String := none
  showDate : Option Bool := none
  showFilename : Option Bool := none
  showLineNumber : Option Bool := none
  showLogLevel : Option Bool := none
  useEmojis : Option Bool := none
  disable : Option Bool := none
  errorHandling : Option String := none
deriving DecidableEq

/-- Embedding of init: the spread merge config = ( ...config,
...userConfig ) keeps the old value of every key the partial does not
carry and overwrites the keys it does. -/
def init (cfg : Config) (userConfig : PartialConfig) : Config :=
  { theme := userConfig.theme.getD cfg.theme,
    showDate := userConfig.showDate.getD cfg.showDate,
    showFilename := userConfig.showFilename.getD cfg.showFilename,
    showLineNumber := userConfig.showLineNumber.getD cfg.showLineNumber,
    showLogLevel := userConfig.showLogLevel.getD cfg.showLogLevel,
    useEmojis := userConfig.useEmojis.getD cfg.useEmojis,
    disable := userConfig.disable.getD cfg.disable,
    errorHandling := userConfig.errorHandling.getD cfg.errorHandling }

/-- Dynamically typed log argument: a string, or any non-string value
(opaque, indexed by a Nat so distinct values exist). -/
inductive JsVal where
  | str (s : String)
  | other (n : Nat)
deriving DecidableEq

/-- One call made to the host console.log primitive: the styled call of
the normal path (format string carrying the style marker, the css
string, the remaining args) or the plain fallback call. -/
inductive ConsoleCall where
  | styled (fmt : String) (css : String) (rest : List JsVal)
  | plain (args : List JsVal)
deriving DecidableEq

/-- The four severity tokens recognized by detectLogLevel. -/
def knownLevels : List String := ["[INFO]", "[WARNING]", "[ERROR]", "[DEBUG]"]

/-- Embedding of detectLogLevel, applied to args[0].  The none branch
covers an absent first argument and every non-string value, since
knownLevels.includes uses strict equality against four string
literals. -/
def detectLogLevel (msg : Option JsVal) : Option String :=
  match msg with
  | some (JsVal.str s) => if knownLevels.contains s then some s else none
  | _ => none

/-- Value produced by a JS bracket lookup on an object literal: an own
data property (a string in these tables), an inherited member of
Object.prototype reached through the prototype chain, or undefined. -/
inductive JsPropValue where
  | str (s : String)
  | protoMember (name : String)
  | undef
deriving DecidableEq

/-- Property names of Object.prototype in a standard host: bracket
lookup of any of these on a plain object literal that does not shadow
them returns the inherited member, never undefined. -/
def objectProtoKeys : List String :=
  ["constructor", "hasOwnProperty", "isPrototypeOf", "propertyIsEnumerable",
   "toLocaleString", "toString", "valueOf",
   "__defineGetter__", "__defineSetter__", "__lookupGetter__", "__lookupSetter__",
   "__proto__"]

/-- JS bracket lookup obj[key] on an object literal whose own data
properties are given by own: an own property wins, otherwise the
prototype chain supplies the Object.prototype member when the key names
one, otherwise the result is undefined. -/
def jsLookup (own : String → Option String) (key : String) : JsPropValue :=
  match own key with
  | some s => JsPropValue.str s
  | none =>
    if objectProtoKeys.contains key then JsPropValue.protoMember key
    else JsPropValue.undef

/-- JS truthiness of a looked-up property value: the empty string and
undefined are falsy; every inherited Object.prototype member (a
function, or the object Object.prototype for proto) is truthy. -/
def jsTruthy : JsPropValue → Bool
  | JsPropValue.str s => !(s == "")
  | JsPropValue.protoMember _ => true
  | JsPropValue.undef => false

/-- JS falsy-or a || b on looked-up property values. -/
def jsOrProp (a b : JsPropValue) : JsPropValue :=
  if jsTruthy a then a else b

/-- String coercion the + operator and template strings apply to a
looked-up value: a string is itself, an inherited built-in function
renders per the NativeFunction grammar that Function.prototype.toString
mandates (the proto accessor yields Object.prototype, an object),
undefined renders as its name. -/
def jsPropToString : JsPropValue → String
  | JsPropValue.str s => s
  | JsPropValue.protoMember name =>
    if name = "__proto__" then "[object Object]"
    else "function " ++ name ++ "() \x7b [native code] \x7d"
  | JsPropValue.undef => "undefined"

/-- Own data properties of the static emoji table of getLogLevelEmoji. -/
def emojiMapping (level : String) : Option String :=
  if level = "[INFO]" then some "ℹ️"
  else if level = "[WARNING]" then some "⚠️"
  else if level = "[ERROR]" then some "❌"
  else if level = "[DEBUG]" then some "🐞"
  else if level = "[LOG]" then some "📝"
  else none

/-- Embedding of getLogLevelEmoji: mapping[level] || mapping["[LOG]"],
with bracket lookup traversing the prototype chain; the returned value
is coerced to text where the source interpolates it. -/
def getLogLevelEmoji (level : String) : String :=
  jsPropToString (jsOrProp (jsLookup emojiMapping level) (jsLookup emojiMapping "[LOG]"))

/-- Own data properties of the level-style table of getThemeStyles. -/
def levelStylesMap (level : String) : Option String :=
  if level = "[INFO]" then some "color: blue; font-weight: bold;"
  else if level = "[WARNING]" then some "color: orange; font-weight: bold;"
  else if level = "[ERROR]" then some "color: red; font-weight: bold;"
  else if level = "[DEBUG]" then some "color: gray; font-style: italic;"
  else if level = "[LOG]" then some ""
  else none

/-- Own data properties of the theme-style table of getThemeStyles. -/
def themeStylesMap (theme : String) : Option String :=
  if theme = "dark" then some "color: white;"
  else if theme = "light" then some "color: black;"
  else if theme = "neon" then some "color: cyan; font-weight: bold;"
  else if theme = "minimal" then some "color: gray; font-style: italic;"
  else none

/-- Embedding of getThemeStyles: (levelStyles[level] || "") +
(themeStyles[theme] || themeStyles.dark), with bracket lookup
traversing the prototype chain and + coercing a non-string operand. -/
def getThemeStyles (theme level : String) : String :=
  let finalLevelStyle := jsOrProp (jsLookup levelStylesMap level) (JsPropValue.str "")
  let finalThemeStyle := jsOrProp (jsLookup themeStylesMap theme) (jsLookup themeStylesMap "dark")
  jsPropToString finalLevelStyle ++ jsPropToString finalThemeStyle

/-- Args as reassigned by the level-detection step of log: the first
element is sliced off exactly when it is a recognized severity token.
The catch block of log reads this reassigned binding, because the slice
happens before every operation of the try block that can throw. -/
def slicedArgs (args : List JsVal) : List JsVal :=
  match detectLogLevel args.head? with
  | some _ => args.tail
  | none => args

/-- Active level of the call: the detected token, or the generic level. -/
def activeLevel (args : List JsVal) : String :=
  match detectLogLevel args.head? with
  | some l => l
  | none => "[LOG]"

/-- Prefix-segment assembly of log, in source order: emoji when
useEmojis, bracketed timestamp when showDate, bracketed file name when
showFilename and the file is not the unknown sentinel, parenthesized
line when showLineNumber and the line is not the unavailable sentinel,
braced function name when it is truthy and not the top-level sentinel
(ungated by any flag), and finally the level tag, unconditionally. -/
def buildPrefixParts (cfg : Config) (nowString : String)
    (caller : CallerDescriptor) (logLevel : String) : List String :=
  let emoji := getLogLevelEmoji logLevel
  let p1 : List String := if cfg.useEmojis then [emoji] else []
  let p2 := if cfg.showDate then p1 ++ ["[" ++ nowString ++ "]"] else p1
  let p3 := if cfg.showFilename && caller.file != "unknown" then
      p2 ++ ["[" ++ caller.file ++ "]"] else p2
  let p4 := if cfg.showLineNumber && caller.line != "?" then
      p3 ++ ["(line " ++ caller.line ++ ")"] else p3
  let p5 := if caller.functionName != "" && caller.functionName != "Global Scope" then
      p4 ++ ["\x7b" ++ caller.functionName ++ "\x7d"] else p4
  p5 ++ [logLevel]

/-- Joined prefix of log: segments joined with single spaces, one
trailing space appended. -/
def prefixStringOf (cfg : Config) (nowString : String)
    (caller : CallerDescriptor) (logLevel : String) : String :=
  String.intercalate " " (buildPrefixParts cfg nowString caller logLevel) ++ " "

/-- Embedding of log.  The host clock is the nowString argument (the
bracketed toLocaleString text) and the outcome of this.findRealCaller()
is the resolver argument: ok carries the returned descriptor, error
carries a thrown exception (opaque, indexed by Nat).  The resolver call
is the only throwing step of the try block in this embedding, and it
happens after the level-detection slice, as in the source.  The catch
block applies the errorHandling policy: fallback forwards the current
args binding to console.log with no styling, throw re-raises the caught
error, and every other value (silent is the default) swallows it. -/
def log (cfg : Config) (resolver : Except Nat CallerDescriptor)
    (nowString : String) (args : List JsVal) : Except Nat (List ConsoleCall) :=
  if cfg.disable then Except.ok []
  else
    let args1 := slicedArgs args
    let logLevel := activeLevel args
    match resolver with
    | Except.error e =>
      if cfg.errorHandling = "fallback" then Except.ok [ConsoleCall.plain args1]
      else if cfg.errorHandling = "throw" then Except.error e
      else Except.ok []
    | Except.ok caller =>
      Except.ok [ConsoleCall.styled
        ("%c" ++ prefixStringOf cfg nowString caller logLevel)
        (getThemeStyles cfg.theme logLevel) args1]

theorem optionGetD_getD {α : Type _} (o : Option α) (a : α) :
    o.getD (o.getD a) = o.getD a := by
  cases o <;> rfl

/-- C7: init is idempotent.  Applying the empty partial leaves the
configuration unchanged, and applying the same partial twice equals
applying it once. -/
theorem init_idempotent (cfg : Config) (u : PartialConfig) :
    init cfg {} = cfg ∧ init (init cfg u) u = init cfg u := by
  constructor
  · rfl
  · simp [init, optionGetD_getD]

/-- C8: the merge of init is shallow and never drops a field.  Merging
the partial with only theme light over the default configuration yields
the default configuration with theme light and every other field at its
default value (the embedding carries every field in every state, so no
key can disappear). -/
theorem init_light_theme_merge :
    init defaultConfig { theme := some "light" } =
      { defaultConfig with theme := "light" } := by
  rfl

/-- C9 (amended): the style and emoji lookups are total deterministic
functions (Lean functions by construction) with the documented
fallbacks for every key that is not an Object.prototype property name:
a theme outside the four known ones resolves to the dark-theme style,
and a level outside the recognized set resolves to the generic level
style (the empty level style) and the generic level emoji.  For a key
that names an Object.prototype member the bracket lookup returns the
inherited truthy member instead, so the fallback is bypassed there (see
the counterexample). -/
theorem style_emoji_lookup_fallback :
    (∀ theme level, theme ∉ (["dark", "light", "neon", "minimal"] : List String) →
      theme ∉ objectProtoKeys →
      getThemeStyles theme level = getThemeStyles "dark" level) ∧
    (∀ theme level,
      level ∉ (["[INFO]", "[WARNING]", "[ERROR]", "[DEBUG]", "[LOG]"] : List String) →
      level ∉ objectProtoKeys →
      getThemeStyles theme level = getThemeStyles theme "[LOG]" ∧
      getLogLevelEmoji level = getLogLevelEmoji "[LOG]") := by
  constructor
  · intro theme level h hp
    simp only [List.mem_cons, List.not_mem_nil, or_false, not_or] at h
    obtain ⟨h1, h2, h3, h4⟩ := h
    simp [getThemeStyles, jsLookup, themeStylesMap, jsOrProp, jsTruthy,
      h1, h2, h3, h4, hp]
  · intro theme level h hp
    simp only [List.mem_cons, List.not_mem_nil, or_false, not_or] at h
    obtain ⟨h1, h2, h3, h4, h5⟩ := h
    constructor
    · simp [getThemeStyles, jsLookup, levelStylesMap, jsOrProp, jsTruthy,
        jsPropToString, h1, h2, h3, h4, h5, hp]
    · simp [getLogLevelEmoji, jsLookup, emojiMapping, jsOrProp, jsTruthy,
        h1, h2, h3, h4, h5, hp]

theorem style_emoji_lookup_fallback_witness :
    getThemeStyles "solarized" "[LOG]" = getThemeStyles "dark" "[LOG]" ∧
    getThemeStyles "dark" "[TRACE]" = getThemeStyles "dark" "[LOG]" ∧
    getLogLevelEmoji "[TRACE]" = getLogLevelEmoji "[LOG]" :=
  ⟨style_emoji_lookup_fallback.1 "solarized" "[LOG]" (by decide) (by decide),
   (style_emoji_lookup_fallback.2 "dark" "[TRACE]" (by decide) (by decide)).1,
   (style_emoji_lookup_fallback.2 "dark" "[TRACE]" (by decide) (by decide)).2⟩

/-- C9 counterexample to the claim as stated: the theme "toString" is
outside the four known themes, yet the bracket lookup
themeStyles["toString"] reaches the inherited Object.prototype.toString
member through the prototype chain; that member is truthy, so the
falsy-or keeps it and the dark-theme fallback is bypassed: the style
lookup does not resolve to the dark theme's style.  The final conjunct
records the resulting css text differing from the dark-theme one (for
every conforming host the coerced text follows the NativeFunction
grammar, which no CSS literal of the table matches). -/
theorem style_lookup_proto_counterexample :
    "toString" ∉ (["dark", "light", "neon", "minimal"] : List String) ∧
    jsLookup themeStylesMap "toString" = JsPropValue.protoMember "toString" ∧
    jsOrProp (jsLookup themeStylesMap "toString") (jsLookup themeStylesMap "dark") =
      JsPropValue.protoMember "toString" ∧
    jsLookup themeStylesMap "dark" = JsPropValue.str "color: white;" ∧
    JsPropValue.protoMember "toString" ≠ JsPropValue.str "color: white;" ∧
    getThemeStyles "toString" "[LOG]" ≠ getThemeStyles "dark" "[LOG]" := by
  refine ⟨by decide, by decide, by decide, by decide, by decide, by decide⟩

/-- C4: the level tag is appended to the prefix whatever the value of
showLogLevel.  The first conjunct states that log never consults the
flag (the whole observable outcome is unchanged under any rewrite of
the flag); the second that the assembled prefix-segment list always
ends with the level tag. -/
theorem log_level_tag_always_appended (cfg : Config) (b : Bool)
    (resolver : Except Nat CallerDescriptor) (nowString : String)
    (args : List JsVal) (caller : CallerDescriptor) (logLevel : String) :
    log { cfg with showLogLevel := b } resolver nowString args =
      log cfg resolver nowString args ∧
    (buildPrefixParts cfg nowString caller logLevel).getLast? = some logLevel := by
  constructor
  · cases cfg
    rfl
  · simp only [buildPrefixParts]
    exact List.getLast?_concat _

/-- C6: with the disable flag set, log returns immediately: no console
call is made and the resolver outcome is never consulted (the result is
the same for every resolver). -/
theorem log_disabled_no_calls (cfg : Config) (r1 r2 : Except Nat CallerDescriptor)
    (nowString : String) (args : List JsVal) (h : cfg.disable = true) :
    log cfg r1 nowString args = Except.ok [] ∧
    log cfg r1 nowString args = log cfg r2 nowString args := by
  simp [log, h]

theorem log_disabled_no_calls_witness :
    log { defaultConfig with disable := true } (Except.error 3) "now"
        [JsVal.str "anything"] = Except.ok [] ∧
    log { defaultConfig with disable := true } (Except.error 3) "now"
        [JsVal.str "anything"] =
      log { defaultConfig with disable := true } (Except.ok unknownCaller) "now"
        [JsVal.str "anything"] :=
  log_disabled_no_calls { defaultConfig with disable := true } (Except.error 3)
    (Except.ok unknownCaller) "now" [JsVal.str "anything"] rfl

/-- C5: level detection.  A first argument equal to one of the four
severity tokens is consumed (only the remaining args are forwarded) and
becomes the active level; any other first argument (and the empty
argument list) leaves the args forwarded unchanged with the generic
level. -/
theorem log_level_detection (cfg : Config) (caller : CallerDescriptor)
    (nowString : String) (h : cfg.disable = false) :
    (∀ t rest, knownLevels.contains t = true →
      log cfg (Except.ok caller) nowString (JsVal.str t :: rest) =
        Except.ok [ConsoleCall.styled ("%c" ++ prefixStringOf cfg nowString caller t)
          (getThemeStyles cfg.theme t) rest]) ∧
    (∀ v rest, detectLogLevel (some v) = none →
      log cfg (Except.ok caller) nowString (v :: rest) =
        Except.ok [ConsoleCall.styled ("%c" ++ prefixStringOf cfg nowString caller "[LOG]")
          (getThemeStyles cfg.theme "[LOG]") (v :: rest)]) ∧
    log cfg (Except.ok caller) nowString [] =
      Except.ok [ConsoleCall.styled ("%c" ++ prefixStringOf cfg nowString caller "[LOG]")
        (getThemeStyles cfg.theme "[LOG]") []] := by
  refine ⟨?_, ?_, ?_⟩
  · intro t rest ht
    simp at ht
    simp [log, h, slicedArgs, activeLevel, detectLogLevel, ht]
  · intro v rest hv
    simp [log, h, slicedArgs, activeLevel, hv]
  · simp [log, h, slicedArgs, activeLevel, detectLogLevel]

theorem log_level_detection_witness :
    log defaultConfig (Except.ok unknownCaller) "now"
        [JsVal.str "[ERROR]", JsVal.str "x"] =
      Except.ok [ConsoleCall.styled
        ("%c" ++ prefixStringOf defaultConfig "now" unknownCaller "[ERROR]")
        (getThemeStyles defaultConfig.theme "[ERROR]") [JsVal.str "x"]] ∧
    log defaultConfig (Except.ok unknownCaller) "now" [JsVal.str "plain"] =
      Except.ok [ConsoleCall.styled
        ("%c" ++ prefixStringOf defaultConfig "now" unknownCaller "[LOG]")
        (getThemeStyles defaultConfig.theme "[LOG]") [JsVal.str "plain"]] :=
  ⟨(log_level_detection defaultConfig unknownCaller "now" rfl).1 "[ERROR]"
      [JsVal.str "x"] (by decide),
   (log_level_detection defaultConfig unknownCaller "now" rfl).2.1
      (JsVal.str "plain") [] (by decide)⟩

/-- C3 (amended): error policy of the catch block.  When the resolver
throws, silent swallows the error with no output, fallback makes exactly
one unstyled console call forwarding the args binding as it stands at
the failure point (the caller-supplied args minus a leading severity
token when one was consumed before the failure), and throw re-raises the
caught error. -/
theorem log_error_policy (cfg : Config) (e : Nat) (nowString : String)
    (args : List JsVal) (h : cfg.disable = false) :
    (cfg.errorHandling = "silent" →
      log cfg (Except.error e) nowString args = Except.ok []) ∧
    (cfg.errorHandling = "fallback" →
      log cfg (Except.error e) nowString args =
        Except.ok [ConsoleCall.plain (slicedArgs args)]) ∧
    (cfg.errorHandling = "throw" →
      log cfg (Except.error e) nowString args = Except.error e) := by
  refine ⟨?_, ?_, ?_⟩ <;> intro hp <;> simp [log, h, hp]

theorem log_error_policy_witness :
    log { defaultConfig with errorHandling := "throw" } (Except.error 5) "now"
      [JsVal.str "x"] = Except.error 5 :=
  (log_error_policy { defaultConfig with errorHandling := "throw" } 5 "now"
    [JsVal.str "x"] rfl).2.2 rfl

/-- C3 counterexample to the claim as stated: with the fallback policy
and a failing resolver, a call whose first argument is a severity token
forwards the token-stripped args, not the original caller-supplied
args, because the slice of the level-detection step happens before the
resolver call throws. -/
theorem log_fallback_sliced_args_counterexample :
    log { defaultConfig with errorHandling := "fallback" } (Except.error 7) "now"
        [JsVal.str "[ERROR]", JsVal.str "x"] =
      Except.ok [ConsoleCall.plain [JsVal.str "x"]] ∧
    [JsVal.str "x"] ≠ [JsVal.str "[ERROR]", JsVal.str "x"] := by
  constructor
  · rfl
  · decide

theorem stringMk_ne_empty {l : List Char} (h : l ≠ []) : String.mk l ≠ "" := by
  intro he
  apply h
  have hd : (String.mk l).data = ("" : String).data := by rw [he]
  simpa using hd

theorem matchNums_ne_nil {cs d1 d2 : List Char}
    (h : matchNums cs = some (d1, d2)) : d1 ≠ [] := by
  simp only [matchNums] at h
  split at h
  · simp at h
  · next hne =>
    split at h
    · split at h
      · simp at h
      · simp only [Option.some.injEq, Prod.mk.injEq] at h
        obtain ⟨h1, h2⟩ := h
        rw [← h1]
        simpa using hne
    · simp at h

theorem matchSep_ne_nil {cs d1 d2 : List Char}
    (h : matchSep cs = some (d1, d2)) : d1 ≠ [] := by
  unfold matchSep at h
  split at h
  · exact matchNums_ne_nil h
  · simp at h

theorem matchG2_ne_nil :
    ∀ {cs g2 d1 d2 : List Char}, matchG2 cs = some (g2, d1, d2) →
      g2 ≠ [] ∧ d1 ≠ [] := by
  intro cs
  induction cs with
  | nil => intro g2 d1 d2 h; simp [matchG2] at h
  | cons c rest ih =>
    intro g2 d1 d2 h
    simp only [matchG2] at h
    split at h
    · split at h
      · next p hp =>
        obtain ⟨p1, p2⟩ := p
        simp only [Option.some.injEq, Prod.mk.injEq] at h
        obtain ⟨h1, h2, h3⟩ := h
        obtain hp1 := matchSep_ne_nil hp
        exact ⟨by rw [← h1]; simp, by rw [← h2]; exact hp1⟩
      · rw [Option.map_eq_some'] at h
        obtain ⟨q, hq, hfq⟩ := h
        obtain ⟨q1, q2, q3⟩ := q
        simp only [Prod.mk.injEq] at hfq
        obtain ⟨h1, h2, h3⟩ := hfq
        obtain ⟨ha, hb⟩ := ih hq
        exact ⟨by rw [← h1]; simp, by rw [← h2]; exact hb⟩
    · simp at h

theorem matchPostSpace_ne_nil {cs g2 d1 d2 : List Char}
    (h : matchPostSpace cs = some (g2, d1, d2)) : g2 ≠ [] ∧ d1 ≠ [] := by
  unfold matchPostSpace at h
  split at h
  · split at h
    · next q hq =>
      cases h
      exact matchG2_ne_nil hq
    · exact matchG2_ne_nil h
  · exact matchG2_ne_nil h

theorem matchG1_ne_nil :
    ∀ {cs g1 g2 d1 d2 : List Char}, matchG1 cs = some (g1, g2, d1, d2) →
      g2 ≠ [] ∧ d1 ≠ [] := by
  intro cs
  induction cs with
  | nil => intro g1 g2 d1 d2 h; simp [matchG1] at h
  | cons c rest ih =>
    intro g1 g2 d1 d2 h
    simp only [matchG1] at h
    split at h
    · split at h
      · next p hp =>
        obtain ⟨p1, p2, p3⟩ := p
        simp only [Option.some.injEq, Prod.mk.injEq] at h
        obtain ⟨h0, h1, h2, h3⟩ := h
        obtain ⟨ha, hb⟩ := matchPostSpace_ne_nil hp
        exact ⟨by rw [← h1]; exact ha, by rw [← h2]; exact hb⟩
      · rw [Option.map_eq_some'] at h
        obtain ⟨q, hq, hfq⟩ := h
        obtain ⟨q1, q2, q3, q4⟩ := q
        simp only [Prod.mk.injEq] at hfq
        obtain ⟨h1, h2, h3, h4⟩ := hfq
        obtain ⟨ha, hb⟩ := ih hq
        exact ⟨by rw [← h2]; exact ha, by rw [← h3]; exact hb⟩
    · split at h
      · rw [Option.map_eq_some'] at h
        obtain ⟨q, hq, hfq⟩ := h
        obtain ⟨q1, q2, q3, q4⟩ := q
        simp only [Prod.mk.injEq] at hfq
        obtain ⟨h1, h2, h3, h4⟩ := hfq
        obtain ⟨ha, hb⟩ := ih hq
        exact ⟨by rw [← h2]; exact ha, by rw [← h3]; exact hb⟩
      · simp at h

theorem matchWhole_ne_nil {cs g1 g2 d1 d2 : List Char}
    (h : matchWhole cs = some (g1, g2, d1, d2)) : g2 ≠ [] ∧ d1 ≠ [] := by
  unfold matchWhole at h
  split at h
  · exact matchG1_ne_nil h
  · simp at h

theorem regexFind_ne_nil :
    ∀ {cs g1 g2 d1 d2 : List Char}, regexFind cs = some (g1, g2, d1, d2) →
      g2 ≠ [] ∧ d1 ≠ [] := by
  intro cs
  induction cs with
  | nil => intro g1 g2 d1 d2 h; simp [regexFind] at h
  | cons c rest ih =>
    intro g1 g2 d1 d2 h
    simp only [regexFind] at h
    cases hw : matchWhole (c :: rest) with
    | none =>
      rw [hw] at h
      exact ih h
    | some q =>
      rw [hw] at h
      simp only [Option.some.injEq] at h
      subst h
      exact matchWhole_ne_nil hw

theorem frameMatch_groups_ne {l : String} {g1 g2 g3 g4 : String}
    (h : frameMatch l = some (g1, g2, g3, g4)) : g2 ≠ "" ∧ g3 ≠ "" := by
  simp only [frameMatch, Option.map_eq_some'] at h
  obtain ⟨q, hq, hmk⟩ := h
  obtain ⟨q1, q2, q3, q4⟩ := q
  simp only [Prod.mk.injEq] at hmk
  obtain ⟨e1, e2, e3, e4⟩ := hmk
  obtain ⟨ha, hb⟩ := regexFind_ne_nil hq
  exact ⟨by rw [← e2]; exact stringMk_ne_empty ha,
    by rw [← e3]; exact stringMk_ne_empty hb⟩

theorem survivingFrame_eq_some {l : String} {m : String × String × String × String}
    (h : survivingFrame l = some m) :
    frameMatch l = some m ∧ isLoggerFrame m.1 m.2.1 = false := by
  unfold survivingFrame at h
  split at h
  · simp at h
  · next g1 g2 g3 g4 heq =>
    split at h
    · simp at h
    · next hf =>
      cases h
      exact ⟨heq, by simpa using hf⟩

theorem findLoop_eq_findSome (ls : List String) :
    findLoop ls =
      match ls.findSome? survivingFrame with
      | some (g1, g2, g3, _g4) => extractFrame g1 g2 g3
      | none => unknownCaller := by
  induction ls with
  | nil => rfl
  | cons l rest ih =>
    rw [List.findSome?_cons]
    cases hm : frameMatch l with
    | none =>
      have hs : survivingFrame l = none := by simp [survivingFrame, hm]
      rw [hs]
      simpa [findLoop, hm] using ih
    | some m =>
      obtain ⟨g1, g2, g3, g4⟩ := m
      cases hf : isLoggerFrame g1 g2 with
      | true =>
        have hs : survivingFrame l = none := by simp [survivingFrame, hm, hf]
        rw [hs]
        simpa [findLoop, hm, hf] using ih
      | false =>
        have hs : survivingFrame l = some (g1, g2, g3, g4) := by
          simp [survivingFrame, hm, hf]
        rw [hs]
        simp [findLoop, hm, hf]

theorem firstSurviving_groups_ne {trace g1 g2 g3 g4 : String}
    (h : firstSurvivingFrame trace = some (g1, g2, g3, g4)) :
    g2 ≠ "" ∧ g3 ≠ "" := by
  obtain ⟨l, _, hsl⟩ :=
    List.exists_of_findSome?_eq_some
      (show ((stackLinesOf trace).drop 1).findSome? survivingFrame =
        some (g1, g2, g3, g4) from h)
  exact frameMatch_groups_ne (survivingFrame_eq_some hsl).1

theorem extractFrame_claimed (g1 g2 g3 : String) (hg2 : g2 ≠ "") (hg3 : g3 ≠ "") :
    extractFrame g1 g2 g3 =
      { functionName := if g1 = "" ∨ g1 = "<anonymous>" then "Global Scope" else g1,
        file := if finalSegment g2 = "" then "unknown" else finalSegment g2,
        line := g3 } := by
  unfold extractFrame
  simp only [CallerDescriptor.mk.injEq]
  refine ⟨?_, ?_, by simp [jsOr, hg3]⟩
  · by_cases h1 : g1 = ""
    · simp [jsOr, h1]
    · by_cases h2 : g1 = "<anonymous>"
      · simp [jsOr, h1, h2]
      · simp [jsOr, h1, h2]
  · rw [show jsOr g2 "unknown" = g2 from by simp [jsOr, hg2]]
    cases hgl : (splitSlashes g2).getLast? with
    | none => simp [jsOrOpt, finalSegment, hgl]
    | some s => simp [jsOrOpt, jsOr, finalSegment, hgl]

/-- C1 (amended): resolve returns the data of the first frame, scanning
from index 1 onward, that matches the pattern and survives the
logger-marker filter: the file token reduced to its final path segment
with the sentinel "unknown" substituted when that segment is empty, the
symbol name normalized to the sentinel "Global Scope" when it is empty
or equals the engine's anonymous placeholder and kept as-is otherwise,
and the line number kept as decimal text unmodified.  Matched frames
rejected by the logger-marker filter are skipped and never returned,
which the definition of firstSurvivingFrame carries. -/
theorem resolve_first_surviving_frame (trace g1 g2 g3 g4 : String)
    (h : firstSurvivingFrame trace = some (g1, g2, g3, g4)) :
    findRealCaller trace =
      { functionName := if g1 = "" ∨ g1 = "<anonymous>" then "Global Scope" else g1,
        file := if finalSegment g2 = "" then "unknown" else finalSegment g2,
        line := g3 } := by
  obtain ⟨hg2, hg3⟩ := firstSurviving_groups_ne h
  have hrw : findRealCaller trace = findLoop ((stackLinesOf trace).drop 1) := rfl
  rw [hrw, findLoop_eq_findSome,
    show ((stackLinesOf trace).drop 1).findSome? survivingFrame =
      some (g1, g2, g3, g4) from h]
  exact extractFrame_claimed g1 g2 g3 hg2 hg3

theorem resolve_first_surviving_frame_witness :
    findRealCaller "Error\n    at myFunc (/home/user/app.js:10:5)" =
      { functionName := "myFunc", file := "app.js", line := "10" } :=
  (resolve_first_surviving_frame "Error\n    at myFunc (/home/user/app.js:10:5)"
      "myFunc" "/home/user/app.js" "10" "5" (by decide)).trans (by decide)

/-- C1 counterexample to the extraction rule as stated: on the trace
whose only matching frame is at  (src/:5:7), the matched symbol name is
the empty capture and the file token ends in a separator, so
findRealCaller applies the two JS falsy defaults and returns the
sentinels "Global Scope" and "unknown", while the extraction stated by
the claim (symbol kept as-is unless it equals the anonymous
placeholder, file reduced to its final path segment) yields the empty
strings: the code and the claimed rule disagree at this input. -/
theorem resolve_spec_extraction_counterexample :
    firstSurvivingFrame "Error\n    at  (src/:5:7)" = some ("", "src/", "5", "7") ∧
    specClaimedExtraction "" "src/" "5" =
      { functionName := "", file := "", line := "5" } ∧
    findRealCaller "Error\n    at  (src/:5:7)" =
      { functionName := "Global Scope", file := "unknown", line := "5" } ∧
    ({ functionName := "Global Scope", file := "unknown", line := "5" } : CallerDescriptor) ≠
      { functionName := "", file := "", line := "5" } := by
  refine ⟨by decide, by decide, by decide, by decide⟩

/-- C2: findRealCaller is a total Lean function of the trace text (it
can never raise by construction, mirroring the never-throws contract),
and on every trace whose lines after the header line all either fail
the frame pattern or are rejected by the logger-marker filter
(survivingFrame is none exactly in those two cases), it returns the
fully unknown descriptor: absence of a resolvable frame is a normal
outcome, not an error. -/
theorem resolve_all_filtered_unknown (trace : String)
    (h : (((stackLinesOf trace).drop 1).all fun l => (survivingFrame l).isNone) = true) :
    findRealCaller trace =
      { functionName := "Global Scope", file := "unknown", line := "?" } := by
  have hnone : ((stackLinesOf trace).drop 1).findSome? survivingFrame = none := by
    rw [List.findSome?_eq_none_iff]
    intro l hl
    have hx := (List.all_eq_true.mp h) l hl
    simpa [Option.isNone_iff_eq_none] using hx
  have hrw : findRealCaller trace = findLoop ((stackLinesOf trace).drop 1) := rfl
  rw [hrw, findLoop_eq_findSome, hnone]
  rfl

theorem resolve_all_filtered_unknown_witness :
    findRealCaller
        "Error\n    at ConsoleLogExtension.log (file:///x/index.js:57:9)\n    at nothing" =
      { functionName := "Global Scope", file := "unknown", line := "?" } :=
  resolve_all_filtered_unknown
    "Error\n    at ConsoleLogExtension.log (file:///x/index.js:57:9)\n    at nothing"
    (by decide)

theorem splitOnPred_no_sep (p : Char → Bool) :
    ∀ (cs : List Char), ∀ l ∈ splitOnPred p cs, ∀ c ∈ l, p c = false := by
  intro cs
  induction cs with
  | nil =>
    intro l hl c hc
    simp [splitOnPred] at hl
    subst hl
    simp at hc
  | cons a cs ih =>
    intro l hl c hc
    simp only [splitOnPred] at hl
    split at hl
    · rcases List.mem_cons.mp hl with h1 | h1
      · subst h1
        simp at hc
      · exact ih l h1 c hc
    · next hpa =>
      cases hr : splitOnPred p cs with
      | nil =>
        rw [hr] at hl
        simp at hl
        subst hl
        have hca : c = a := by simpa using hc
        subst hca
        simpa using hpa
      | cons hh tt =>
        rw [hr] at hl
        rcases List.mem_cons.mp hl with h1 | h1
        · subst h1
          rcases List.mem_cons.mp hc with h2 | h2
          · subst h2
            simpa using hpa
          · exact ih hh (by rw [hr]; exact List.mem_cons_self _ _) c h2
        · exact ih l (by rw [hr]; exact List.mem_cons_of_mem _ h1) c hc

theorem splitSlashes_no_slash (s : String) :
    ∀ seg ∈ splitSlashes s, '/' ∉ seg.data ∧ '\\' ∉ seg.data := by
  intro seg hseg
  simp only [splitSlashes, splitOnSlashes, List.mem_map] at hseg
  obtain ⟨l, hl, rfl⟩ := hseg
  constructor <;> intro hc
  · have h0 := splitOnPred_no_sep (fun c => c == '/' || c == '\\') s.data l hl '/' hc
    simp at h0
  · have h0 := splitOnPred_no_sep (fun c => c == '/' || c == '\\') s.data l hl '\\' hc
    simp at h0

theorem extractFrame_wellformed (g1 g2 g3 : String) :
    (extractFrame g1 g2 g3).functionName ≠ "" ∧
    (extractFrame g1 g2 g3).file ≠ "" ∧
    (extractFrame g1 g2 g3).line ≠ "" ∧
    '/' ∉ (extractFrame g1 g2 g3).file.data ∧
    '\\' ∉ (extractFrame g1 g2 g3).file.data := by
  have hfn : (extractFrame g1 g2 g3).functionName ≠ "" := by
    show (if jsOr g1 "Global Scope" != "<anonymous>" then jsOr g1 "Global Scope"
      else "Global Scope") ≠ ""
    split
    · unfold jsOr
      split
      · decide
      · assumption
    · decide
  have hline : (extractFrame g1 g2 g3).line ≠ "" := by
    show jsOr g3 "?" ≠ ""
    unfold jsOr
    split
    · decide
    · assumption
  have hfile : (extractFrame g1 g2 g3).file ≠ "" ∧
      '/' ∉ (extractFrame g1 g2 g3).file.data ∧
      '\\' ∉ (extractFrame g1 g2 g3).file.data := by
    show jsOrOpt (splitSlashes (jsOr g2 "unknown")).getLast? "unknown" ≠ "" ∧
      '/' ∉ (jsOrOpt (splitSlashes (jsOr g2 "unknown")).getLast? "unknown").data ∧
      '\\' ∉ (jsOrOpt (splitSlashes (jsOr g2 "unknown")).getLast? "unknown").data
    cases ho : (splitSlashes (jsOr g2 "unknown")).getLast? with
    | none =>
      exact ⟨by decide, by decide, by decide⟩
    | some s =>
      have hmem : s ∈ splitSlashes (jsOr g2 "unknown") := List.mem_of_mem_getLast? ho
      have hns := splitSlashes_no_slash (jsOr g2 "unknown") s hmem
      simp only [jsOrOpt]
      unfold jsOr
      split
      · exact ⟨by decide, by decide, by decide⟩
      · next hs => exact ⟨hs, hns.1, hns.2⟩
  exact ⟨hfn, hfile.1, hline, hfile.2.1, hfile.2.2⟩

theorem findLoop_wellformed (ls : List String) :
    (findLoop ls).functionName ≠ "" ∧
    (findLoop ls).file ≠ "" ∧
    (findLoop ls).line ≠ "" ∧
    '/' ∉ (findLoop ls).file.data ∧
    '\\' ∉ (findLoop ls).file.data := by
  induction ls with
  | nil => exact ⟨by decide, by decide, by decide, by decide, by decide⟩
  | cons l rest ih =>
    have heq : findLoop (l :: rest) =
        (match frameMatch l with
         | none => findLoop rest
         | some (g1, g2, g3, _g4) =>
           if isLoggerFrame g1 g2 then findLoop rest else extractFrame g1 g2 g3) := rfl
    rw [heq]
    cases hm : frameMatch l with
    | none => exact ih
    | some m =>
      obtain ⟨g1, g2, g3, g4⟩ := m
      cases hf : isLoggerFrame g1 g2 with
      | true => simpa [hf] using ih
      | false => simpa [hf] using extractFrame_wellformed g1 g2 g3

/-- C10: on every input trace the descriptor returned by findRealCaller
has three nonempty fields, and its file field contains no forward or
backward slash: it is either the literal sentinel "unknown" or the
final (necessarily nonempty, slash-free) path segment of the first
surviving frame's file token. -/
theorem resolve_descriptor_wellformed (trace : String) :
    (findRealCaller trace).functionName ≠ "" ∧
    (findRealCaller trace).file ≠ "" ∧
    (findRealCaller trace).line ≠ "" ∧
    '/' ∉ (findRealCaller trace).file.data ∧
    '\\' ∉ (findRealCaller trace).file.data ∧
    ((findRealCaller trace).file = "unknown" ∨
      ∃ g1 g2 g3 g4, firstSurvivingFrame trace = some (g1, g2, g3, g4) ∧
        (findRealCaller trace).file = finalSegment g2) := by
  obtain ⟨h1, h2, h3, h4, h5⟩ := findLoop_wellformed ((stackLinesOf trace).drop 1)
  have hrw : findRealCaller trace = findLoop ((stackLinesOf trace).drop 1) := rfl
  refine ⟨hrw ▸ h1, hrw ▸ h2, hrw ▸ h3, hrw ▸ h4, hrw ▸ h5, ?_⟩
  cases hfs : firstSurvivingFrame trace with
  | none =>
    left
    have hnone : ((stackLinesOf trace).drop 1).findSome? survivingFrame = none := hfs
    rw [hrw, findLoop_eq_findSome, hnone]
    rfl
  | some m =>
    obtain ⟨g1, g2, g3, g4⟩ := m
    obtain ⟨hg2, hg3⟩ := firstSurviving_groups_ne hfs
    have hsome : ((stackLinesOf trace).drop 1).findSome? survivingFrame =
      some (g1, g2, g3, g4) := hfs
    by_cases hseg : finalSegment g2 = ""
    · left
      rw [hrw, findLoop_eq_findSome, hsome]
      show (extractFrame g1 g2 g3).file = "unknown"
      rw [extractFrame_claimed g1 g2 g3 hg2 hg3]
      simp [hseg]
    · right
      refine ⟨g1, g2, g3, g4, rfl, ?_⟩
      rw [hrw, findLoop_eq_findSome, hsome]
      show (extractFrame g1 g2 g3).file = finalSegment g2
      rw [extractFrame_claimed g1 g2 g3 hg2 hg3]
      simp [hseg]

end ConsoleLogExtension

